import Mathlib

/-!
Shallow embedding of the load-balancing dispatch engine in
src/modules/api/loadbalancer/ServiceDispatcher.ts.

Conventions of the embedding:
* JavaScript timestamps and durations are Nat; Date.now() becomes an explicit
  parameter `now` of every operation that reads the clock.
* JavaScript Map objects become association lists; `getk`/`setk`/`delk` model
  Map.get / Map.set / Map.delete observably (lookup reads the first binding,
  set replaces the first binding in place or appends, delete removes the key).
* The ad hoc fields `keyStatuses` and `keyRotationIndex` that the source
  attaches dynamically to a runtime-status entry are Option-valued fields
  (none = the field was never attached).
* JavaScript truthiness tests on numbers and strings are spelled out
  (a Nat is falsy exactly when 0; a string is falsy exactly when empty).
* The asynchronous storageService.getUserSettings() fetch is a pure
  parameter `settings` of getEnabledConfigs.
-/

namespace ServiceDispatcher

/-- An error payload `{ code, message }` passed to the mark-error operations. -/
structure ApiError where
  code : Int
  message : String
deriving DecidableEq, Repr

/-- A recorded last error `{ code, message, timestamp }`. -/
structure ErrorInfo where
  code : Int
  message : String
  timestamp : Nat
deriving DecidableEq, Repr

/-- Per-key health state stored in the nested `keyStatuses` map. -/
structure KeyStatus where
  successCount : Nat
  failureCount : Nat
  cooldownUntil : Option Nat
  lastError : Option ErrorInfo
deriving DecidableEq, Repr

/-- The fresh key entry `{ successCount: 0, failureCount: 0 }`. -/
def defaultKeyStatus : KeyStatus :=
  { successCount := 0, failureCount := 0, cooldownUntil := none, lastError := none }

/-- One entry of `runtimeStatusCache`.  `keyStatuses` and `keyRotationIndex`
are the fields attached dynamically by the multi-key operations. -/
structure RuntimeStatus where
  lastUsed : Option Nat
  successCount : Nat
  failureCount : Nat
  lastError : Option ErrorInfo
  cooldownUntil : Option Nat
  keyStatuses : Option (List (String × KeyStatus))
  keyRotationIndex : Option Nat
deriving DecidableEq, Repr

/-- The fresh entry `{ successCount: 0, failureCount: 0 }`. -/
def defaultRuntimeStatus : RuntimeStatus :=
  { lastUsed := none, successCount := 0, failureCount := 0, lastError := none,
    cooldownUntil := none, keyStatuses := none, keyRotationIndex := none }

/-- An `ApiConfigItem` as far as the dispatcher reads it: identity, display
name, provider tag, enabled flag, priority, and `config?.apiKey`. -/
structure ApiConfigItem where
  id : String
  name : String
  provider : String
  enabled : Option Bool
  priority : Option Int
  apiKey : Option String
deriving DecidableEq, Repr

instance : Inhabited ApiConfigItem :=
  ⟨{ id := "", name := "", provider := "", enabled := none, priority := none, apiKey := none }⟩

/-- The mutable fields of the ServiceDispatcher singleton. -/
structure DispatcherState where
  currentIndex : Nat
  runtimeStatusCache : List (String × RuntimeStatus)
  configCache : Option (List ApiConfigItem)
  enabledConfigsCache : List (String × List ApiConfigItem)
  cacheTimestamp : Nat
deriving DecidableEq, Repr

/-- The state of a freshly constructed dispatcher. -/
def initialState : DispatcherState :=
  { currentIndex := 0, runtimeStatusCache := [], configCache := none,
    enabledConfigsCache := [], cacheTimestamp := 0 }

/-- `Map.get k` on an association list. -/
def getk {β : Type} (k : String) : List (String × β) → Option β
  | [] => none
  | (k', v) :: rest => if k' = k then some v else getk k rest

/-- `Map.set k v` on an association list: replace the first binding of `k`
in place, or append a new binding. -/
def setk {β : Type} (k : String) (v : β) : List (String × β) → List (String × β)
  | [] => [(k, v)]
  | (k', v') :: rest => if k' = k then (k, v) :: rest else (k', v') :: setk k v rest

/-- `Map.delete k` on an association list. -/
def delk {β : Type} (k : String) (m : List (String × β)) : List (String × β) :=
  m.filter (fun p => decide (p.1 ≠ k))

/-- `Number.MAX_SAFE_INTEGER` = 2^53 - 1. -/
def MAX_SAFE_INTEGER : Nat := 2 ^ 53 - 1

/-- `CACHE_TTL_MS` = 1000. -/
def CACHE_TTL_MS : Nat := 1000

/-! ### parseApiKeys -/

/-- A character matched by the split regex `[,\n\r]`. -/
def isSepChar (c : Char) : Bool := c == ',' || c == '\n' || c == '\r'

/-- A character removed by JavaScript `String.prototype.trim`
(ECMAScript WhiteSpace or LineTerminator). -/
def isJsWhitespace (c : Char) : Bool :=
  c == ' ' || c == '\t' || c == '\n' || c == '\r' ||
  c == '\x0b' || c == '\x0c' || c == '\u00A0' || c == '\uFEFF' ||
  c == '\u1680' || (0x2000 ≤ c.toNat && c.toNat ≤ 0x200A) ||
  c == '\u2028' || c == '\u2029' || c == '\u202F' || c == '\u205F' || c == '\u3000'

/-- `raw.split(/[,\n\r]/)` on the character list of the string. -/
def splitChars (l : List Char) : List (List Char) :=
  l.foldr
    (fun c acc =>
      if isSepChar c then [] :: acc
      else
        match acc with
        | [] => [[c]]
        | t :: ts => (c :: t) :: ts)
    [[]]

/-- JavaScript `String.prototype.trim` on a character list: drop leading and
trailing whitespace. -/
def trimChars (l : List Char) : List Char :=
  ((l.dropWhile isJsWhitespace).reverse.dropWhile isJsWhitespace).reverse

/-- `parseApiKeys`: guard the falsy empty string, split on `[,\n\r]`, trim
each token, keep the non-empty ones. -/
def parseApiKeys (apiKeyRaw : String) : List String :=
  if apiKeyRaw = "" then []
  else
    ((splitChars apiKeyRaw.data).map (fun t => String.mk (trimChars t))).filter
      (fun k => 0 < k.length)

/-! ### Round-robin selection and the failover queue -/

/-- `getNextConfig`: round robin over `configs` driven by the shared
`currentIndex`, which wraps to 0 at `MAX_SAFE_INTEGER`. -/
def getNextConfig (configs : List ApiConfigItem) (s : DispatcherState) :
    Option ApiConfigItem × DispatcherState :=
  if configs.length = 0 then (none, s)
  else
    let config := configs.getD (s.currentIndex % configs.length) default
    let next := s.currentIndex + 1
    (some config, { s with currentIndex := if MAX_SAFE_INTEGER ≤ next then 0 else next })

/-- The numeric priority of a config: `priority || 0`. -/
def prio (c : ApiConfigItem) : Int := c.priority.getD 0

/-- The comparison underlying `(a, b) => (a.priority || 0) - (b.priority || 0)`
used with the (stable) JavaScript sort. -/
def prioLe (a b : ApiConfigItem) : Prop := prio a ≤ prio b

instance : DecidableRel prioLe := fun a b => inferInstanceAs (Decidable (prio a ≤ prio b))

instance : IsTotal ApiConfigItem prioLe := ⟨fun a b => Int.le_total (prio a) (prio b)⟩

instance : IsTrans ApiConfigItem prioLe := ⟨fun _ _ _ => Int.le_trans⟩

/-- `buildFailoverQueue`: pick the round-robin preferred config, then the
remaining configs (by id) sorted ascending by priority.  JavaScript's sort is
stable, so the embedding uses a stable insertion sort. -/
def buildFailoverQueue (configs : List ApiConfigItem) (s : DispatcherState) :
    List ApiConfigItem × DispatcherState :=
  if configs.length = 0 then ([], s)
  else
    match getNextConfig configs s with
    | (none, s') => ([], s')
    | (some preferred, s') =>
      let others :=
        List.insertionSort prioLe (configs.filter (fun c => decide (c.id ≠ preferred.id)))
      (preferred :: others, s')

/-! ### Endpoint-level health reports and stats -/

/-- `markConfigError`: bump the failure counter, record the last error,
and set `cooldownUntil = now + cooldownDuration`. -/
def markConfigError (configId : String) (error : ApiError) (cooldownDuration : Nat)
    (now : Nat) (s : DispatcherState) : DispatcherState :=
  let existing := (getk configId s.runtimeStatusCache).getD defaultRuntimeStatus
  { s with
    runtimeStatusCache :=
      setk configId
        { existing with
          failureCount := existing.failureCount + 1,
          lastError := some { code := error.code, message := error.message, timestamp := now },
          cooldownUntil := some (now + cooldownDuration) }
        s.runtimeStatusCache }

/-- `markConfigSuccess`: bump the success counter, stamp `lastUsed`,
and clear `cooldownUntil`. -/
def markConfigSuccess (configId : String) (now : Nat) (s : DispatcherState) :
    DispatcherState :=
  let existing := (getk configId s.runtimeStatusCache).getD defaultRuntimeStatus
  { s with
    runtimeStatusCache :=
      setk configId
        { existing with
          lastUsed := some now,
          successCount := existing.successCount + 1,
          cooldownUntil := none }
        s.runtimeStatusCache }

/-- `resetIndex`. -/
def resetIndex (s : DispatcherState) : DispatcherState :=
  { s with currentIndex := 0 }

/-- `clearRuntimeStatusCache`. -/
def clearRuntimeStatusCache (s : DispatcherState) : DispatcherState :=
  { s with runtimeStatusCache := [] }

/-- `getCurrentIndex`. -/
def getCurrentIndex (s : DispatcherState) : Nat := s.currentIndex

/-- The record returned by `getConfigStats`. -/
structure ConfigStats where
  successCount : Nat
  failureCount : Nat
  lastUsed : Option Nat
  isInCooldown : Bool
deriving DecidableEq, Repr

/-- `getConfigStats`: `null` when no entry exists; `isInCooldown` is the
truthiness test `!!(status.cooldownUntil && Date.now() < status.cooldownUntil)`. -/
def getConfigStats (configId : String) (now : Nat) (s : DispatcherState) :
    Option ConfigStats :=
  (getk configId s.runtimeStatusCache).map fun status =>
    { successCount := status.successCount,
      failureCount := status.failureCount,
      lastUsed := status.lastUsed,
      isInCooldown :=
        match status.cooldownUntil with
        | none => false
        | some cu => decide (cu ≠ 0) && decide (now < cu) }

/-! ### Enabled-config view with TTL cache and cooldown filter -/

/-- The boolean condition of the cooldown filter:
`!cachedStatus?.cooldownUntil || now >= cachedStatus.cooldownUntil`
(a `cooldownUntil` of 0 is falsy, hence available). -/
def endpointAvailable (s : DispatcherState) (id : String) (now : Nat) : Bool :=
  match getk id s.runtimeStatusCache with
  | none => true
  | some status =>
    match status.cooldownUntil with
    | none => true
    | some cu => cu == 0 || decide (cu ≤ now)

/-- `filterCooldownConfigs` with its three paths: empty status map, single
config, and the general filter. -/
def filterCooldownConfigs (configs : List ApiConfigItem) (now : Nat)
    (s : DispatcherState) : List ApiConfigItem :=
  if s.runtimeStatusCache = [] then configs
  else if configs.length = 1 then
    if endpointAvailable s ((configs.getD 0 default).id) now then configs else []
  else configs.filter (fun c => endpointAvailable s c.id now)

/-- The cache key `providerId || '__all__'` (an empty provider string is
falsy and keys the unfiltered view). -/
def cacheKeyOf (providerId : Option String) : String :=
  match providerId with
  | some p => if p = "" then "__all__" else p
  | none => "__all__"

/-- The effective provider filter: `if (providerId)` treats the empty string
like an absent filter. -/
def provFilterOf (providerId : Option String) : Option String :=
  match providerId with
  | some p => if p = "" then none else some p
  | none => none

/-- The enabled-and-provider-filtered list recomputed on a cache miss, from
`configCache` when populated or else from the fetched settings. -/
def enabledBase (settings : List ApiConfigItem) (providerId : Option String)
    (s : DispatcherState) : List ApiConfigItem :=
  let apis :=
    match s.configCache with
    | some a => a
    | none => settings
  let enabledCfgs := apis.filter (fun c => c.enabled != some false)
  match provFilterOf providerId with
  | some p => enabledCfgs.filter (fun c => c.provider == p)
  | none => enabledCfgs

/-- `getEnabledConfigs`: serve the cached enabled-and-provider-filtered list
when `cacheTimestamp` is truthy, the TTL has not elapsed and the key is
cached — re-applying the cooldown filter either way. -/
def getEnabledConfigs (settings : List ApiConfigItem) (providerId : Option String)
    (now : Nat) (s : DispatcherState) : List ApiConfigItem × DispatcherState :=
  let cacheKey := cacheKeyOf providerId
  if 0 < s.cacheTimestamp ∧ now - s.cacheTimestamp < CACHE_TTL_MS ∧
      (getk cacheKey s.enabledConfigsCache).isSome then
    (filterCooldownConfigs ((getk cacheKey s.enabledConfigsCache).getD []) now s, s)
  else
    let apis :=
      match s.configCache with
      | some a => a
      | none => settings
    let configs := enabledBase settings providerId s
    let s' := { s with
      configCache := some apis,
      enabledConfigsCache := setk cacheKey configs s.enabledConfigsCache,
      cacheTimestamp := now }
    (filterCooldownConfigs configs now s', s')

/-! ### Diagnostics -/

/-- One record of the `getAllConfigsStatus` summary. -/
structure ConfigStatusRecord where
  configId : String
  configName : String
  provider : String
  enabled : Bool
  successCount : Nat
  failureCount : Nat
  lastUsed : Option Nat
  isInCooldown : Bool
  cooldownRemainingMs : Option Nat
  lastError : Option ErrorInfo
  keyCount : Nat
deriving DecidableEq, Repr

/-- The per-config status record built inside `getAllConfigsStatus`. -/
def configStatusFor (s : DispatcherState) (now : Nat) (config : ApiConfigItem) :
    ConfigStatusRecord :=
  let status := getk config.id s.runtimeStatusCache
  let keys := parseApiKeys (config.apiKey.getD "")
  let inCooldown :=
    match status with
    | none => false
    | some st =>
      match st.cooldownUntil with
      | none => false
      | some cu => decide (cu ≠ 0) && decide (now < cu)
  { configId := config.id,
    configName := config.name,
    provider := config.provider,
    enabled := config.enabled != some false,
    successCount := (status.map (·.successCount)).getD 0,
    failureCount := (status.map (·.failureCount)).getD 0,
    lastUsed := status.bind (·.lastUsed),
    isInCooldown := inCooldown,
    cooldownRemainingMs :=
      match status with
      | none => none
      | some st =>
        match st.cooldownUntil with
        | none => none
        | some cu => if cu ≠ 0 ∧ now < cu then some (cu - now) else none,
    lastError := status.bind (·.lastError),
    keyCount := keys.length }

/-- `getAllConfigsStatus`. -/
def getAllConfigsStatus (configs : List ApiConfigItem) (now : Nat)
    (s : DispatcherState) : List ConfigStatusRecord :=
  configs.map (configStatusFor s now)

/-! ### Multi-key rotation -/

/-- The availability test of the key-scan loop:
`!keyStatus?.cooldownUntil || now >= keyStatus.cooldownUntil`. -/
def keyAvailable (keyStatuses : List (String × KeyStatus)) (key : String)
    (now : Nat) : Bool :=
  match getk key keyStatuses with
  | none => true
  | some ks =>
    match ks.cooldownUntil with
    | none => true
    | some cu => cu == 0 || decide (cu ≤ now)

/-- The scan of `for (let i = 0; i < keys.length; i++)` in
`getNextAvailableApiKey`: try positions `(rotationIndex + i) % keys.length`
in order, return on the first available key after advancing the stored
index, or fall through with the state unchanged. -/
def keyScanCore (configId : String) (keys : List String) (now : Nat)
    (keyStatuses : List (String × KeyStatus)) (status : RuntimeStatus)
    (s : DispatcherState) : Option String × DispatcherState :=
  let rotationIndex := status.keyRotationIndex.getD 0
  match (List.range keys.length).find?
      (fun i => keyAvailable keyStatuses (keys.getD ((rotationIndex + i) % keys.length) "") now) with
  | some i =>
    let idx := (rotationIndex + i) % keys.length
    let status' := { status with keyRotationIndex := some ((idx + 1) % keys.length) }
    (some (keys.getD idx ""),
     { s with runtimeStatusCache := setk configId status' s.runtimeStatusCache })
  | none => (none, s)

/-- `getNextAvailableApiKey`: parse the raw keys; zero keys → null, one key →
returned directly; otherwise attach an empty `keyStatuses` map to the (possibly
freshly created) entry when missing — writing the entry back — and scan. -/
def getNextAvailableApiKey (configId : String) (apiKeyRaw : String) (now : Nat)
    (s : DispatcherState) : Option String × DispatcherState :=
  let keys := parseApiKeys apiKeyRaw
  if keys.length = 0 then (none, s)
  else if keys.length = 1 then (keys.head?, s)
  else
    let status := (getk configId s.runtimeStatusCache).getD defaultRuntimeStatus
    match status.keyStatuses with
    | some m => keyScanCore configId keys now m status s
    | none =>
      let status' := { status with keyStatuses := some [] }
      keyScanCore configId keys now [] status'
        { s with runtimeStatusCache := setk configId status' s.runtimeStatusCache }

/-- `markApiKeyError`: bump the key's failure counter, stamp its last error
and set its cooldown, attaching the `keyStatuses` map if missing.  The
endpoint-level fields of the entry are not touched. -/
def markApiKeyError (configId apiKey : String) (error : ApiError)
    (cooldownDuration : Nat) (now : Nat) (s : DispatcherState) : DispatcherState :=
  let status := (getk configId s.runtimeStatusCache).getD defaultRuntimeStatus
  let keyStatuses := status.keyStatuses.getD []
  let existing := (getk apiKey keyStatuses).getD defaultKeyStatus
  let keyStatuses' :=
    setk apiKey
      { existing with
        failureCount := existing.failureCount + 1,
        cooldownUntil := some (now + cooldownDuration),
        lastError := some { code := error.code, message := error.message, timestamp := now } }
      keyStatuses
  { s with
    runtimeStatusCache :=
      setk configId { status with keyStatuses := some keyStatuses' } s.runtimeStatusCache }

/-- `markApiKeySuccess`: bump the key's success counter and clear its
cooldown, attaching the `keyStatuses` map if missing. -/
def markApiKeySuccess (configId apiKey : String) (s : DispatcherState) :
    DispatcherState :=
  let status := (getk configId s.runtimeStatusCache).getD defaultRuntimeStatus
  let keyStatuses := status.keyStatuses.getD []
  let existing := (getk apiKey keyStatuses).getD defaultKeyStatus
  let keyStatuses' :=
    setk apiKey
      { existing with
        successCount := existing.successCount + 1,
        cooldownUntil := none }
      keyStatuses
  { s with
    runtimeStatusCache :=
      setk configId { status with keyStatuses := some keyStatuses' } s.runtimeStatusCache }

/-! ### Event handlers -/

/-- The shared `invalidateCache` closure registered for every
configuration-change event. -/
def invalidateCache (s : DispatcherState) : DispatcherState :=
  { s with configCache := none, enabledConfigsCache := [], cacheTimestamp := 0 }

/-- The `API_CONFIG_REMOVED` handler: invalidate the caches, then delete the
runtime entry when the carried id is truthy and present. -/
def handleConfigRemoved (configId : String) (s : DispatcherState) : DispatcherState :=
  let s := invalidateCache s
  if configId ≠ "" ∧ (getk configId s.runtimeStatusCache).isSome then
    { s with runtimeStatusCache := delk configId s.runtimeStatusCache }
  else s

/-! ### Operation alphabets used by the invariant claims -/

/-- The operations whose effect on the rotation cursor the cursor-invariant
claim quantifies over. -/
inductive CursorOp where
  | next (configs : List ApiConfigItem)
  | build (configs : List ApiConfigItem)
  | reset
deriving DecidableEq, Repr

/-- State effect of one cursor operation. -/
def applyCursorOp (o : CursorOp) (s : DispatcherState) : DispatcherState :=
  match o with
  | .next configs => (getNextConfig configs s).2
  | .build configs => (buildFailoverQueue configs s).2
  | .reset => resetIndex s

/-- Run a sequence of cursor operations. -/
def runCursorOps (ops : List CursorOp) (s : DispatcherState) : DispatcherState :=
  ops.foldl (fun s o => applyCursorOp o s) s

/-- The dispatcher operations relevant to the health-entry lifecycle claim. -/
inductive RegistryOp where
  | markError (id : String) (error : ApiError) (cooldownDuration now : Nat)
  | markSuccess (id : String) (now : Nat)
  | keyError (id key : String) (error : ApiError) (cooldownDuration now : Nat)
  | keySuccess (id key : String)
  | nextKey (id raw : String) (now : Nat)
  | nextConfig (configs : List ApiConfigItem)
  | failover (configs : List ApiConfigItem)
  | enabled (settings : List ApiConfigItem) (providerId : Option String) (now : Nat)
  | removed (id : String)
  | clearStatus
  | reset
deriving DecidableEq, Repr

/-- State effect of one registry operation. -/
def applyRegistryOp (o : RegistryOp) (s : DispatcherState) : DispatcherState :=
  match o with
  | .markError id error d now => markConfigError id error d now s
  | .markSuccess id now => markConfigSuccess id now s
  | .keyError id key error d now => markApiKeyError id key error d now s
  | .keySuccess id key => markApiKeySuccess id key s
  | .nextKey id raw now => (getNextAvailableApiKey id raw now s).2
  | .nextConfig configs => (getNextConfig configs s).2
  | .failover configs => (buildFailoverQueue configs s).2
  | .enabled settings providerId now => (getEnabledConfigs settings providerId now s).2
  | .removed id => handleConfigRemoved id s
  | .clearStatus => clearRuntimeStatusCache s
  | .reset => resetIndex s

/-- Run a sequence of registry operations. -/
def runRegistryOps (ops : List RegistryOp) (s : DispatcherState) : DispatcherState :=
  ops.foldl (fun s o => applyRegistryOp o s) s

/-- The operations that create (or re-create) the runtime-status entry of a
given id: the four report operations, and `getNextAvailableApiKey` when the
raw string parses to at least two keys. -/
def createsEntryFor (id : String) : RegistryOp → Prop
  | .markError i _ _ _ => i = id
  | .markSuccess i _ => i = id
  | .keyError i _ _ _ _ => i = id
  | .keySuccess i _ => i = id
  | .nextKey i raw _ => i = id ∧ 2 ≤ (parseApiKeys raw).length
  | _ => False

instance (id : String) (o : RegistryOp) : Decidable (createsEntryFor id o) := by
  cases o <;> simp [createsEntryFor] <;> infer_instance

/-- Trace of `n` consecutive `getNextConfig` calls against a fixed list. -/
def iterNextConfig (configs : List ApiConfigItem) :
    Nat → DispatcherState → List (Option ApiConfigItem) × DispatcherState
  | 0, s => ([], s)
  | n + 1, s =>
    let r := getNextConfig configs s
    let rest := iterNextConfig configs n r.2
    (r.1 :: rest.1, rest.2)

/-- The stored key-rotation index of an endpoint as the scan reads it:
`(status as any).keyRotationIndex || 0` of the entry, 0 when absent. -/
def readKeyRotationIndex (s : DispatcherState) (id : String) : Nat :=
  (((getk id s.runtimeStatusCache).getD defaultRuntimeStatus).keyRotationIndex).getD 0

/-- The stored per-key health map of an endpoint, empty when absent. -/
def readKeyStatuses (s : DispatcherState) (id : String) : List (String × KeyStatus) :=
  (((getk id s.runtimeStatusCache).getD defaultRuntimeStatus).keyStatuses).getD []

/-! ### Concrete fixtures used by witnesses and counterexamples -/

/-- Sample config `a` with priority 5. -/
def cfgA : ApiConfigItem :=
  { id := "a", name := "A", provider := "p1", enabled := none,
    priority := some 5, apiKey := none }

/-- Sample config `b` with priority 1. -/
def cfgB : ApiConfigItem :=
  { id := "b", name := "B", provider := "p1", enabled := none,
    priority := some 1, apiKey := none }

/-- Sample config `c` with no priority field. -/
def cfgC : ApiConfigItem :=
  { id := "c", name := "C", provider := "p2", enabled := some true,
    priority := none, apiKey := some "k1,k2" }

/-- Sample disabled config `d`. -/
def cfgD : ApiConfigItem :=
  { id := "d", name := "D", provider := "p2", enabled := some false,
    priority := none, apiKey := none }

/-- Sample state in which endpoint `e` has key `k2` cooling down until time
100 and its key rotation index stored at 0. -/
def sampleKeyState : DispatcherState :=
  { initialState with
    runtimeStatusCache :=
      [("e", { defaultRuntimeStatus with
               keyStatuses := some [("k2", { defaultKeyStatus with cooldownUntil := some 100 })],
               keyRotationIndex := some 0 })] }

/-! ## Association-list lemmas -/

theorem getk_setk_self {β : Type} (k : String) (v : β) (m : List (String × β)) :
    getk k (setk k v m) = some v := by
  induction m with
  | nil => simp [getk, setk]
  | cons p rest ih =>
    obtain ⟨k', v'⟩ := p
    by_cases h : k' = k
    · simp [getk, setk, h]
    · simp [getk, setk, h, ih]

theorem getk_setk_ne {β : Type} {k q : String} (v : β) (m : List (String × β))
    (h : q ≠ k) : getk q (setk k v m) = getk q m := by
  have hkq : ¬k = q := fun hh => h hh.symm
  induction m with
  | nil => simp [getk, setk, hkq]
  | cons p rest ih =>
    obtain ⟨k', v'⟩ := p
    by_cases hk : k' = k
    · subst hk
      simp [getk, setk, hkq]
    · by_cases hq : k' = q <;> simp [getk, setk, hk, hq, h, ih]

theorem delk_cons {β : Type} (k k' : String) (v' : β) (rest : List (String × β)) :
    delk k ((k', v') :: rest) =
      if k' = k then delk k rest else (k', v') :: delk k rest := by
  by_cases h : k' = k <;> simp [delk, h]

theorem getk_delk_self {β : Type} (k : String) (m : List (String × β)) :
    getk k (delk k m) = none := by
  induction m with
  | nil => simp [getk, delk]
  | cons p rest ih =>
    obtain ⟨k', v'⟩ := p
    rw [delk_cons]
    by_cases h : k' = k
    · simpa [h] using ih
    · simpa [getk, h] using ih

theorem getk_delk_ne {β : Type} {k q : String} (m : List (String × β))
    (h : q ≠ k) : getk q (delk k m) = getk q m := by
  induction m with
  | nil => simp [getk, delk]
  | cons p rest ih =>
    obtain ⟨k', v'⟩ := p
    rw [delk_cons]
    by_cases hk : k' = k
    · subst hk
      have hq : ¬k' = q := fun hh => h hh.symm
      simpa [getk, hq] using ih
    · by_cases hq : k' = q <;> simp [getk, hk, hq, h, ih]

/-! ## C3: the cooldown window -/

/-- C3: after `markConfigError id err d` at time `t`, the `isInCooldown` flag
reported by `getConfigStats` at query time `q` is true exactly when
`q < t + d` — true strictly before the deadline, false at or after it — and
`markConfigSuccess` issued at any point on any state makes the flag false
immediately, so no endpoint is permanently excluded. -/
theorem c3_cooldown_window (s s2 : DispatcherState) (id : String) (err : ApiError)
    (d t q now2 : Nat) :
    ((getConfigStats id q (markConfigError id err d t s)).map (·.isInCooldown)
      = some (decide (q < t + d))) ∧
    ((getConfigStats id q (markConfigSuccess id now2 s2)).map (·.isInCooldown)
      = some false) := by
  constructor
  · simp only [getConfigStats, markConfigError, getk_setk_self, Option.map_some]
    by_cases h0 : t + d = 0
    · simp [h0]
    · simp [h0]
  · simp [getConfigStats, markConfigSuccess, getk_setk_self]

/-! ## C5: parseApiKeys -/

theorem dropWhile_dropWhile {α : Type} (p : α → Bool) (l : List α) :
    (l.dropWhile p).dropWhile p = l.dropWhile p := by
  induction l with
  | nil => simp
  | cons a t ih =>
    by_cases h : p a
    · simpa [List.dropWhile_cons, h] using ih
    · simp [List.dropWhile_cons, h]

theorem exists_append_dropWhile {α : Type} (p : α → Bool) (l : List α) :
    ∃ u, u ++ l.dropWhile p = l := by
  induction l with
  | nil => exact ⟨[], rfl⟩
  | cons a t ih =>
    by_cases h : p a
    · obtain ⟨u, hu⟩ := ih
      exact ⟨a :: u, by simp [List.dropWhile_cons, h, hu]⟩
    · exact ⟨[], by simp [List.dropWhile_cons, h]⟩

theorem length_dropWhile_le {α : Type} (p : α → Bool) (l : List α) :
    (l.dropWhile p).length ≤ l.length := by
  induction l with
  | nil => simp
  | cons a t ih =>
    by_cases h : p a
    · rw [List.dropWhile_cons, if_pos h]
      exact ih.trans (Nat.le_succ _)
    · simp [List.dropWhile_cons, h]

theorem dropWhile_eq_self_of_prefix {α : Type} (p : α → Bool) {x y : List α}
    (hpre : ∃ u, y ++ u = x) (hx : x.dropWhile p = x) : y.dropWhile p = y := by
  obtain ⟨u, hu⟩ := hpre
  cases y with
  | nil => simp
  | cons a t =>
    subst hu
    by_cases h : p a
    · exfalso
      rw [List.cons_append, List.dropWhile_cons, if_pos h] at hx
      have hlen := congrArg List.length hx
      have hle := length_dropWhile_le p (t ++ u)
      simp only [List.length_cons] at hlen
      omega
    · simp [List.dropWhile_cons, h]

/-- JavaScript trim is idempotent: a trimmed token is its own trim. -/
theorem trimChars_trimChars (l : List Char) : trimChars (trimChars l) = trimChars l := by
  have hA : (l.dropWhile isJsWhitespace).dropWhile isJsWhitespace
      = l.dropWhile isJsWhitespace := dropWhile_dropWhile _ _
  obtain ⟨u, hu⟩ :=
    exists_append_dropWhile isJsWhitespace (l.dropWhile isJsWhitespace).reverse
  have hpre : ∃ t, trimChars l ++ t = l.dropWhile isJsWhitespace := by
    refine ⟨u.reverse, ?_⟩
    unfold trimChars
    rw [← List.reverse_append, hu, List.reverse_reverse]
  have h1 : (trimChars l).dropWhile isJsWhitespace = trimChars l :=
    dropWhile_eq_self_of_prefix _ hpre hA
  unfold trimChars at h1 ⊢
  rw [h1, List.reverse_reverse, dropWhile_dropWhile]

/-- C5: every element `parseApiKeys` returns is a non-empty token fixed under
JavaScript trim (whitespace already removed), tokens appear in source order as
witnessed by the split of the mixed separator string
`"a, b\nc,, d"` into `["a","b","c","d"]`, and the empty raw string parses to
the empty list. -/
theorem c5_parseApiKeys (raw x : String) (hx : x ∈ parseApiKeys raw) :
    (x ≠ "" ∧ String.mk (trimChars x.data) = x) ∧
    parseApiKeys ("a, b\nc,, d") = ["a", "b", "c", "d"] ∧
    parseApiKeys ("") = [] := by
  refine ⟨?_, by decide, rfl⟩
  unfold parseApiKeys at hx
  by_cases h : raw = ""
  · simp [h] at hx
  · rw [if_neg h] at hx
    obtain ⟨hx1, hx2⟩ := List.mem_filter.mp hx
    obtain ⟨t, _, rfl⟩ := List.mem_map.mp hx1
    refine ⟨?_, ?_⟩
    · intro hempty
      rw [hempty] at hx2
      simp [String.length] at hx2
    · show String.mk (trimChars (String.mk (trimChars t)).data) = String.mk (trimChars t)
      rw [show (String.mk (trimChars t)).data = trimChars t from rfl, trimChars_trimChars]

/-- Witness for C5 at the documented example: `"a"` is a parsed token of
`"a, b\nc,, d"`, and the theorem's conclusions hold for it. -/
theorem c5_parseApiKeys_witness :
    (("a" : String) ∈ parseApiKeys ("a, b\nc,, d")) ∧
    ((("a" : String) ≠ "" ∧ String.mk (trimChars ("a" : String).data) = "a") ∧
      parseApiKeys ("a, b\nc,, d") = ["a", "b", "c", "d"] ∧
      parseApiKeys ("") = []) :=
  ⟨by decide, c5_parseApiKeys ("a, b\nc,, d") "a" (by decide)⟩

/-! ## Frame lemmas on the runtime status map -/

theorem getNextConfig_runtime (configs : List ApiConfigItem) (s : DispatcherState) :
    ((getNextConfig configs s).2).runtimeStatusCache = s.runtimeStatusCache := by
  unfold getNextConfig
  split <;> rfl

theorem buildFailoverQueue_runtime (configs : List ApiConfigItem) (s : DispatcherState) :
    ((buildFailoverQueue configs s).2).runtimeStatusCache = s.runtimeStatusCache := by
  unfold buildFailoverQueue
  by_cases h : configs.length = 0
  · simp [h]
  · rw [if_neg h]
    cases hg : getNextConfig configs s with
    | mk r s' =>
      have : s'.runtimeStatusCache = s.runtimeStatusCache := by
        have := getNextConfig_runtime configs s
        rw [hg] at this
        exact this
      cases r <;> simpa using this

theorem getEnabledConfigs_runtime (settings : List ApiConfigItem)
    (providerId : Option String) (now : Nat) (s : DispatcherState) :
    ((getEnabledConfigs settings providerId now s).2).runtimeStatusCache
      = s.runtimeStatusCache := by
  simp only [getEnabledConfigs]
  split <;> rfl

theorem keyScanCore_runtime_ne (i q : String) (keys : List String) (now : Nat)
    (keyStatuses : List (String × KeyStatus)) (status : RuntimeStatus)
    (s : DispatcherState) (h : q ≠ i) :
    getk q ((keyScanCore i keys now keyStatuses status s).2).runtimeStatusCache
      = getk q s.runtimeStatusCache := by
  simp only [keyScanCore]
  split <;> simp [getk_setk_ne _ _ h]

/-! ## C9: the endpoint-removal notification -/

/-- C9: handling the removal notification for a (non-empty) endpoint id
invalidates the whole configuration cache (raw snapshot, derived per-key
cache and timestamp) and deletes the id's runtime entry, so a subsequent
`getConfigStats` for the id is absent and every `getAllConfigsStatus` record
of that id reports zero counters, no cooldown, no last error and no
last-used timestamp. -/
theorem c9_removal (s : DispatcherState) (id : String) (h : id ≠ "")
    (q now : Nat) (configs : List ApiConfigItem) :
    (handleConfigRemoved id s).configCache = none ∧
    (handleConfigRemoved id s).enabledConfigsCache = [] ∧
    (handleConfigRemoved id s).cacheTimestamp = 0 ∧
    getConfigStats id q (handleConfigRemoved id s) = none ∧
    (∀ r ∈ getAllConfigsStatus configs now (handleConfigRemoved id s),
      r.configId = id →
        r.successCount = 0 ∧ r.failureCount = 0 ∧ r.isInCooldown = false ∧
        r.cooldownRemainingMs = none ∧ r.lastError = none ∧ r.lastUsed = none) := by
  have hgk : getk id (handleConfigRemoved id s).runtimeStatusCache = none := by
    simp only [handleConfigRemoved, invalidateCache]
    cases hgo : getk id s.runtimeStatusCache with
    | none =>
      rw [if_neg (by simp [hgo])]
      exact hgo
    | some st =>
      rw [if_pos ⟨h, by simp [hgo]⟩]
      exact getk_delk_self id _
  have hcaches : (handleConfigRemoved id s).configCache = none ∧
      (handleConfigRemoved id s).enabledConfigsCache = [] ∧
      (handleConfigRemoved id s).cacheTimestamp = 0 := by
    simp only [handleConfigRemoved, invalidateCache]
    split <;> exact ⟨rfl, rfl, rfl⟩
  refine ⟨hcaches.1, hcaches.2.1, hcaches.2.2, ?_, ?_⟩
  · simp [getConfigStats, hgk]
  · intro r hr hrid
    obtain ⟨c, _, rfl⟩ := List.mem_map.mp hr
    have hcid : c.id = id := hrid
    simp [configStatusFor, hcid, hgk]

/-- Witness for C9 at a concrete populated state. -/
theorem c9_removal_witness :
    (("e1" : String) ≠ "") ∧
    (let s := markConfigError "e1" { code := 500, message := "boom" } 60000 10 initialState
     (handleConfigRemoved "e1" s).configCache = none ∧
     (handleConfigRemoved "e1" s).enabledConfigsCache = [] ∧
     (handleConfigRemoved "e1" s).cacheTimestamp = 0 ∧
     getConfigStats "e1" 11 (handleConfigRemoved "e1" s) = none ∧
     (∀ r ∈ getAllConfigsStatus
        [{ id := "e1", name := "n", provider := "p", enabled := none,
           priority := none, apiKey := none }] 11 (handleConfigRemoved "e1" s),
       r.configId = "e1" →
         r.successCount = 0 ∧ r.failureCount = 0 ∧ r.isInCooldown = false ∧
         r.cooldownRemainingMs = none ∧ r.lastError = none ∧ r.lastUsed = none)) :=
  ⟨by decide,
   c9_removal (markConfigError "e1" { code := 500, message := "boom" } 60000 10 initialState)
     "e1" (by decide) 11 11
     [{ id := "e1", name := "n", provider := "p", enabled := none,
        priority := none, apiKey := none }]⟩

/-! ## C10: key-scoped reports do not touch endpoint-level health -/

/-- C10: `markApiKeyError` and `markApiKeySuccess` leave every endpoint-level
field of the endpoint's entry (successCount, failureCount, lastUsed,
lastError, cooldownUntil) unchanged, and leave the endpoint-level cooldown
predicate used by selection unchanged — a key failure never puts the endpoint
itself on cooldown and a key success never clears an endpoint cooldown. -/
theorem c10_key_report_frame (s : DispatcherState) (id key : String)
    (err : ApiError) (d now q : Nat) :
    (∀ st, getk id s.runtimeStatusCache = some st →
      ∃ stE, getk id (markApiKeyError id key err d now s).runtimeStatusCache = some stE ∧
        stE.successCount = st.successCount ∧ stE.failureCount = st.failureCount ∧
        stE.lastUsed = st.lastUsed ∧ stE.lastError = st.lastError ∧
        stE.cooldownUntil = st.cooldownUntil) ∧
    (∀ st, getk id s.runtimeStatusCache = some st →
      ∃ stS, getk id (markApiKeySuccess id key s).runtimeStatusCache = some stS ∧
        stS.successCount = st.successCount ∧ stS.failureCount = st.failureCount ∧
        stS.lastUsed = st.lastUsed ∧ stS.lastError = st.lastError ∧
        stS.cooldownUntil = st.cooldownUntil) ∧
    endpointAvailable (markApiKeyError id key err d now s) id q
      = endpointAvailable s id q ∧
    endpointAvailable (markApiKeySuccess id key s) id q
      = endpointAvailable s id q := by
  refine ⟨?_, ?_, ?_, ?_⟩
  · intro st hst
    simp only [markApiKeyError, getk_setk_self]
    exact ⟨_, rfl, by simp [hst], by simp [hst], by simp [hst], by simp [hst], by simp [hst]⟩
  · intro st hst
    simp only [markApiKeySuccess, getk_setk_self]
    exact ⟨_, rfl, by simp [hst], by simp [hst], by simp [hst], by simp [hst], by simp [hst]⟩
  · cases hst : getk id s.runtimeStatusCache <;>
      simp [endpointAvailable, markApiKeyError, getk_setk_self, hst,
        defaultRuntimeStatus]
  · cases hst : getk id s.runtimeStatusCache <;>
      simp [endpointAvailable, markApiKeySuccess, getk_setk_self, hst,
        defaultRuntimeStatus]

/-- Witness for C10 at a concrete endpoint entry carrying an endpoint-level
cooldown. -/
theorem c10_key_report_frame_witness :
    (let s := markConfigError "e" { code := 1, message := "m" } 100 0 initialState
     (∀ st, getk "e" s.runtimeStatusCache = some st →
       ∃ stE, getk "e" (markApiKeyError "e" "k" { code := 2, message := "n" } 50 3 s).runtimeStatusCache
           = some stE ∧
         stE.successCount = st.successCount ∧ stE.failureCount = st.failureCount ∧
         stE.lastUsed = st.lastUsed ∧ stE.lastError = st.lastError ∧
         stE.cooldownUntil = st.cooldownUntil) ∧
     (∀ st, getk "e" s.runtimeStatusCache = some st →
       ∃ stS, getk "e" (markApiKeySuccess "e" "k" s).runtimeStatusCache = some stS ∧
         stS.successCount = st.successCount ∧ stS.failureCount = st.failureCount ∧
         stS.lastUsed = st.lastUsed ∧ stS.lastError = st.lastError ∧
         stS.cooldownUntil = st.cooldownUntil) ∧
     endpointAvailable (markApiKeyError "e" "k" { code := 2, message := "n" } 50 3 s) "e" 5
       = endpointAvailable s "e" 5 ∧
     endpointAvailable (markApiKeySuccess "e" "k" s) "e" 5
       = endpointAvailable s "e" 5) :=
  c10_key_report_frame
    (markConfigError "e" { code := 1, message := "m" } 100 0 initialState)
    "e" "k" { code := 2, message := "n" } 50 3 5

/-! ## C7: lifecycle of runtime health entries -/

/-- C7 is refuted by the code: `getNextAvailableApiKey` — a pure selection
query — creates a runtime-status entry for an id that has never been
reported, as soon as the raw string parses to at least two keys.  After a
single multi-key selection on the fresh state, stats for the id are present. -/
theorem c7_counterexample :
    getConfigStats "e1" 0 ((getNextAvailableApiKey "e1" ("k1,k2") 0 initialState).2) ≠ none := by
  decide

theorem applyRegistryOp_absent (o : RegistryOp) (id : String) (s : DispatcherState)
    (hno : ¬createsEntryFor id o)
    (h0 : getk id s.runtimeStatusCache = none) :
    getk id (applyRegistryOp o s).runtimeStatusCache = none := by
  cases o with
  | markError i e dd nn =>
    have hi : id ≠ i := fun hh => hno (by simp [createsEntryFor, hh])
    simp only [applyRegistryOp, markConfigError]
    rw [getk_setk_ne _ _ hi]
    exact h0
  | markSuccess i nn =>
    have hi : id ≠ i := fun hh => hno (by simp [createsEntryFor, hh])
    simp only [applyRegistryOp, markConfigSuccess]
    rw [getk_setk_ne _ _ hi]
    exact h0
  | keyError i k e dd nn =>
    have hi : id ≠ i := fun hh => hno (by simp [createsEntryFor, hh])
    simp only [applyRegistryOp, markApiKeyError]
    rw [getk_setk_ne _ _ hi]
    exact h0
  | keySuccess i k =>
    have hi : id ≠ i := fun hh => hno (by simp [createsEntryFor, hh])
    simp only [applyRegistryOp, markApiKeySuccess]
    rw [getk_setk_ne _ _ hi]
    exact h0
  | nextKey i raw nn =>
    simp only [applyRegistryOp, getNextAvailableApiKey]
    by_cases hl0 : (parseApiKeys raw).length = 0
    · rw [if_pos hl0]
      exact h0
    · rw [if_neg hl0]
      by_cases hl1 : (parseApiKeys raw).length = 1
      · rw [if_pos hl1]
        exact h0
      · rw [if_neg hl1]
        have h2 : 2 ≤ (parseApiKeys raw).length := by omega
        have hi : id ≠ i := by
          intro hh
          exact hno (by simp [createsEntryFor, hh.symm, h2])
        split
        · rw [keyScanCore_runtime_ne _ _ _ _ _ _ _ hi]
          exact h0
        · rw [keyScanCore_runtime_ne _ _ _ _ _ _ _ hi]
          simp only
          rw [getk_setk_ne _ _ hi]
          exact h0
  | nextConfig cs =>
    simp only [applyRegistryOp]
    rw [getNextConfig_runtime]
    exact h0
  | failover cs =>
    simp only [applyRegistryOp]
    rw [buildFailoverQueue_runtime]
    exact h0
  | enabled settings providerId nn =>
    simp only [applyRegistryOp]
    rw [getEnabledConfigs_runtime]
    exact h0
  | removed i =>
    simp only [applyRegistryOp, handleConfigRemoved, invalidateCache]
    split
    · by_cases hi : id = i
      · subst hi
        exact getk_delk_self _ _
      · rw [getk_delk_ne _ hi]
        exact h0
    · exact h0
  | clearStatus =>
    simp [applyRegistryOp, clearRuntimeStatusCache, getk]
  | reset =>
    exact h0

theorem runRegistryOps_absent (id : String) (ops : List RegistryOp) :
    ∀ s : DispatcherState, getk id s.runtimeStatusCache = none →
      (∀ o ∈ ops, ¬createsEntryFor id o) →
      getk id (runRegistryOps ops s).runtimeStatusCache = none := by
  induction ops with
  | nil => exact fun s h0 _ => h0
  | cons o rest ih =>
    intro s h0 hops
    exact ih _ (applyRegistryOp_absent o id s (hops o (by simp)) h0)
      (fun o' ho' => hops o' (by simp [ho']))

/-- C7 (amended): a runtime health entry for an id is created by the first
endpoint- or key-level report for that id and also by `getNextAvailableApiKey`
when the raw string parses to at least two keys; it is deleted by the removal
notification or an explicit clear.  Hence, starting from any state without an
entry for the id (such as right after removal or clear), any sequence of
operations containing no report for that id and no multi-key
`getNextAvailableApiKey` call for that id leaves stats for that id absent. -/
theorem c7_entry_lifecycle (ops : List RegistryOp) (id : String)
    (s : DispatcherState) (q : Nat)
    (h0 : getk id s.runtimeStatusCache = none)
    (hops : ∀ o ∈ ops, ¬createsEntryFor id o) :
    getk id (runRegistryOps ops s).runtimeStatusCache = none ∧
    getConfigStats id q (runRegistryOps ops s) = none := by
  have main := runRegistryOps_absent id ops s h0 hops
  exact ⟨main, by simp [getConfigStats, main]⟩

/-- Witness for C7 (amended) on a concrete operation sequence that reports
other ids, selects keys for other ids, runs single-key selection for the
tracked id, rotates, resets and removes an unrelated id. -/
theorem c7_entry_lifecycle_witness :
    (getk "e1" initialState.runtimeStatusCache = none) ∧
    (∀ o ∈ [RegistryOp.markError "other" { code := 1, message := "m" } 10 0,
            RegistryOp.nextKey "e1" "k1" 0,
            RegistryOp.nextKey "other2" "k1,k2" 0,
            RegistryOp.nextConfig [],
            RegistryOp.reset,
            RegistryOp.enabled [] none 0,
            RegistryOp.removed "x"], ¬createsEntryFor "e1" o) ∧
    (getk "e1" (runRegistryOps
        [RegistryOp.markError "other" { code := 1, message := "m" } 10 0,
         RegistryOp.nextKey "e1" "k1" 0,
         RegistryOp.nextKey "other2" "k1,k2" 0,
         RegistryOp.nextConfig [],
         RegistryOp.reset,
         RegistryOp.enabled [] none 0,
         RegistryOp.removed "x"] initialState).runtimeStatusCache = none ∧
     getConfigStats "e1" 7 (runRegistryOps
        [RegistryOp.markError "other" { code := 1, message := "m" } 10 0,
         RegistryOp.nextKey "e1" "k1" 0,
         RegistryOp.nextKey "other2" "k1,k2" 0,
         RegistryOp.nextConfig [],
         RegistryOp.reset,
         RegistryOp.enabled [] none 0,
         RegistryOp.removed "x"] initialState) = none) :=
  ⟨by decide, by decide,
   c7_entry_lifecycle _ "e1" initialState 7 (by decide) (by decide)⟩

/-! ## C8: the rotation cursor never overflows -/

theorem getNextConfig_cursor (configs : List ApiConfigItem) (s : DispatcherState) :
    ((getNextConfig configs s).2).currentIndex =
      if configs.length = 0 then s.currentIndex
      else if MAX_SAFE_INTEGER ≤ s.currentIndex + 1 then 0 else s.currentIndex + 1 := by
  by_cases h : configs.length = 0 <;> simp [getNextConfig, h]

theorem buildFailoverQueue_state (configs : List ApiConfigItem) (s : DispatcherState) :
    (buildFailoverQueue configs s).2 =
      if configs.length = 0 then s else (getNextConfig configs s).2 := by
  by_cases h : configs.length = 0
  · simp [buildFailoverQueue, h]
  · simp only [buildFailoverQueue, if_neg h]
    cases hg : getNextConfig configs s with
    | mk r s' => cases r <;> simp

theorem getNextConfig_cursor_lt (configs : List ApiConfigItem) (s : DispatcherState)
    (h : s.currentIndex < MAX_SAFE_INTEGER) :
    ((getNextConfig configs s).2).currentIndex < MAX_SAFE_INTEGER := by
  have hmax : 0 < MAX_SAFE_INTEGER := by decide
  rw [getNextConfig_cursor]
  split
  · exact h
  · split
    · exact hmax
    · omega

theorem applyCursorOp_lt (o : CursorOp) (s : DispatcherState)
    (h : s.currentIndex < MAX_SAFE_INTEGER) :
    (applyCursorOp o s).currentIndex < MAX_SAFE_INTEGER := by
  cases o with
  | next configs => exact getNextConfig_cursor_lt configs s h
  | build configs =>
    simp only [applyCursorOp]
    rw [buildFailoverQueue_state]
    split
    · exact h
    · exact getNextConfig_cursor_lt configs s h
  | reset =>
    have hmax : 0 < MAX_SAFE_INTEGER := by decide
    simpa [applyCursorOp, resetIndex] using hmax

theorem runCursorOps_lt (ops : List CursorOp) :
    ∀ s : DispatcherState, s.currentIndex < MAX_SAFE_INTEGER →
      (runCursorOps ops s).currentIndex < MAX_SAFE_INTEGER := by
  induction ops with
  | nil => exact fun s h => h
  | cons o rest ih => exact fun s h => ih _ (applyCursorOp_lt o s h)

/-- C8: along every sequence of `getNextConfig`, `buildFailoverQueue` and
`resetIndex` operations from the fresh state, the cursor reported by
`getCurrentIndex` stays strictly below `MAX_SAFE_INTEGER = 2^53 - 1` (it is a
Nat, hence nonnegative); `resetIndex` sets it to 0; and a rotation or
failover step never decreases it except at the wrap, which happens exactly
when the cursor is `MAX_SAFE_INTEGER - 1` and resets it to 0. -/
theorem c8_cursor_invariant (ops : List CursorOp) (o : CursorOp) :
    getCurrentIndex (runCursorOps ops initialState) < MAX_SAFE_INTEGER ∧
    (o = CursorOp.reset →
      getCurrentIndex (applyCursorOp o (runCursorOps ops initialState)) = 0) ∧
    (∀ configs, o = CursorOp.next configs ∨ o = CursorOp.build configs →
      getCurrentIndex (runCursorOps ops initialState)
          ≤ getCurrentIndex (applyCursorOp o (runCursorOps ops initialState)) ∨
        (getCurrentIndex (runCursorOps ops initialState) = MAX_SAFE_INTEGER - 1 ∧
          getCurrentIndex (applyCursorOp o (runCursorOps ops initialState)) = 0)) := by
  have hlt : (runCursorOps ops initialState).currentIndex < MAX_SAFE_INTEGER :=
    runCursorOps_lt ops initialState (by decide)
  refine ⟨hlt, ?_, ?_⟩
  · intro ho
    subst ho
    rfl
  · intro configs ho
    have hcur : getCurrentIndex (applyCursorOp o (runCursorOps ops initialState)) =
        if configs.length = 0 then (runCursorOps ops initialState).currentIndex
        else if MAX_SAFE_INTEGER ≤ (runCursorOps ops initialState).currentIndex + 1 then 0
        else (runCursorOps ops initialState).currentIndex + 1 := by
      rcases ho with ho | ho <;> subst ho
      · exact getNextConfig_cursor configs _
      · show ((buildFailoverQueue configs _).2).currentIndex = _
        rw [buildFailoverQueue_state]
        split
        · simp [*]
        · rw [getNextConfig_cursor]
          simp [*]
    rw [hcur]
    simp only [getCurrentIndex] at hlt ⊢
    by_cases h0 : configs.length = 0
    · rw [if_pos h0]
      left
      exact Nat.le_refl _
    · rw [if_neg h0]
      by_cases hw : MAX_SAFE_INTEGER ≤ (runCursorOps ops initialState).currentIndex + 1
      · rw [if_pos hw]
        right
        exact ⟨by omega, rfl⟩
      · rw [if_neg hw]
        left
        omega

/-- Witness for C8: after one rotation over a single config from the fresh
state, the cursor is below the threshold, a reset drives it to 0, and a
further rotation step does not decrease it. -/
theorem c8_cursor_invariant_witness :
    (getCurrentIndex (runCursorOps
        [CursorOp.next [{ id := "a", name := "a", provider := "p", enabled := none,
                          priority := none, apiKey := none }]] initialState)
      < MAX_SAFE_INTEGER) ∧
    (getCurrentIndex (runCursorOps
          [CursorOp.next [{ id := "a", name := "a", provider := "p", enabled := none,
                            priority := none, apiKey := none }]] initialState)
        ≤ getCurrentIndex (applyCursorOp
            (CursorOp.next [{ id := "a", name := "a", provider := "p", enabled := none,
                              priority := none, apiKey := none }])
            (runCursorOps
              [CursorOp.next [{ id := "a", name := "a", provider := "p", enabled := none,
                                priority := none, apiKey := none }]] initialState)) ∨
      (getCurrentIndex (runCursorOps
          [CursorOp.next [{ id := "a", name := "a", provider := "p", enabled := none,
                            priority := none, apiKey := none }]] initialState)
          = MAX_SAFE_INTEGER - 1 ∧
        getCurrentIndex (applyCursorOp
            (CursorOp.next [{ id := "a", name := "a", provider := "p", enabled := none,
                              priority := none, apiKey := none }])
            (runCursorOps
              [CursorOp.next [{ id := "a", name := "a", provider := "p", enabled := none,
                                priority := none, apiKey := none }]] initialState)) = 0)) :=
  ⟨(c8_cursor_invariant
      [CursorOp.next [{ id := "a", name := "a", provider := "p", enabled := none,
                        priority := none, apiKey := none }]]
      (CursorOp.next [{ id := "a", name := "a", provider := "p", enabled := none,
                        priority := none, apiKey := none }])).1,
   (c8_cursor_invariant
      [CursorOp.next [{ id := "a", name := "a", provider := "p", enabled := none,
                        priority := none, apiKey := none }]]
      (CursorOp.next [{ id := "a", name := "a", provider := "p", enabled := none,
                        priority := none, apiKey := none }])).2.2
     [{ id := "a", name := "a", provider := "p", enabled := none,
        priority := none, apiKey := none }] (Or.inl rfl)⟩

/-! ## C1: round-robin rotation of getNextConfig -/

/-- C1 is refuted at the wrap state: with the cursor at
`MAX_SAFE_INTEGER - 1 = 2^53 - 2` (a state reachable by that many rotation
steps), a call on the two-element list does not advance the cursor by one
(it wraps to 0), and two consecutive calls return the first candidate twice,
so the two calls do not visit every candidate exactly once. -/
theorem c1_counterexample :
    ((getNextConfig [cfgA, cfgB] { initialState with currentIndex := 2 ^ 53 - 2 }).1
      = some cfgA) ∧
    (((getNextConfig [cfgA, cfgB] { initialState with currentIndex := 2 ^ 53 - 2 }).2).currentIndex
      = 0) ∧
    ((getNextConfig [cfgA, cfgB]
        ((getNextConfig [cfgA, cfgB] { initialState with currentIndex := 2 ^ 53 - 2 }).2)).1
      = some cfgA) ∧
    cfgA ≠ cfgB := by
  refine ⟨?_, ?_, ?_, by decide⟩ <;> decide

theorem iterNextConfig_formula (cs : List ApiConfigItem) (hne : cs.length ≠ 0) :
    ∀ (k : Nat) (s : DispatcherState), s.currentIndex + k < MAX_SAFE_INTEGER →
      (iterNextConfig cs k s).1 =
        (List.range k).map
          (fun i => some (cs.getD ((s.currentIndex + i) % cs.length) default)) := by
  intro k
  induction k with
  | zero => intro s _; rfl
  | succ n ih =>
    intro s h
    have hnw : ¬MAX_SAFE_INTEGER ≤ s.currentIndex + 1 := by omega
    have hstep : getNextConfig cs s =
        (some (cs.getD (s.currentIndex % cs.length) default),
         { s with currentIndex := s.currentIndex + 1 }) := by
      simp [getNextConfig, hne, hnw]
    have ih' := ih { s with currentIndex := s.currentIndex + 1 } (by simp; omega)
    simp only at ih'
    simp only [iterNextConfig]
    rw [hstep]
    simp only
    rw [ih']
    rw [List.range_succ_eq_map, List.map_cons, List.map_map]
    rw [List.cons_eq_cons]
    refine ⟨by simp, ?_⟩
    apply List.map_congr_left
    intro i hi
    simp only [Function.comp_apply]
    have harith : s.currentIndex + 1 + i = s.currentIndex + (i + 1) := by omega
    rw [harith]

theorem range_map_eq_rotate (cs : List ApiConfigItem) (c : Nat)
    (hne : cs.length ≠ 0) :
    (List.range cs.length).map
        (fun i => some (cs.getD ((c + i) % cs.length) default))
      = (cs.rotate (c % cs.length)).map some := by
  have hpos : 0 < cs.length := Nat.pos_of_ne_zero hne
  apply List.ext_getElem?
  intro n
  by_cases hn : n < cs.length
  · rw [List.getElem?_map, List.getElem?_map, List.getElem?_range hn,
      List.getElem?_rotate hn]
    have hidx : (n + c % cs.length) % cs.length = (c + n) % cs.length := by
      conv_lhs => rw [Nat.add_mod n (c % cs.length), Nat.mod_mod_of_dvd _ dvd_rfl,
        ← Nat.add_mod]
      rw [Nat.add_comm]
    rw [hidx]
    have hlt : (c + n) % cs.length < cs.length := Nat.mod_lt _ hpos
    simp [List.getD_eq_getElem?_getD, List.getElem?_eq_getElem hlt]
  · rw [List.getElem?_map, List.getElem?_map]
    have h1 : (List.range cs.length)[n]? = none := by
      simp [List.getElem?_eq_none_iff, Nat.le_of_not_lt hn]
    have h2 : (cs.rotate (c % cs.length))[n]? = none := by
      simp [List.getElem?_eq_none_iff, Nat.le_of_not_lt hn]
    rw [h1, h2]
    rfl

/-- C1 (amended): `getNextConfig` returns absent on an empty list; on a
non-empty list of length n it returns the element at position
(cursor mod n) and advances the cursor by one — provided the incremented
cursor stays below `MAX_SAFE_INTEGER` (at the threshold it wraps to 0
instead).  Consequently, when no wrap occurs across the n calls
(cursor + n < MAX_SAFE_INTEGER), n consecutive calls against a fixed
non-empty list return exactly the list rotated to start at position
(cursor mod n): every candidate exactly once, in list order. -/
theorem c1_rotation (cs : List ApiConfigItem) (s : DispatcherState)
    (hne : cs.length ≠ 0) (hnw : s.currentIndex + cs.length < MAX_SAFE_INTEGER) :
    (getNextConfig [] s = (none, s)) ∧
    ((getNextConfig cs s).1 = some (cs.getD (s.currentIndex % cs.length) default)) ∧
    (((getNextConfig cs s).2).currentIndex = s.currentIndex + 1) ∧
    ((iterNextConfig cs cs.length s).1
      = (cs.rotate (s.currentIndex % cs.length)).map some) ∧
    List.Perm (cs.rotate (s.currentIndex % cs.length)) cs := by
  have hpos : 0 < cs.length := Nat.pos_of_ne_zero hne
  refine ⟨by simp [getNextConfig], ?_, ?_, ?_, List.rotate_perm cs _⟩
  · simp [getNextConfig, hne]
  · have hnw1 : ¬MAX_SAFE_INTEGER ≤ s.currentIndex + 1 := by omega
    simp [getNextConfig, hne, hnw1]
  · rw [iterNextConfig_formula cs hne cs.length s hnw]
    exact range_map_eq_rotate cs s.currentIndex hne

/-- Witness for C1 (amended): three calls over `[cfgA, cfgB, cfgC]` from
cursor 4 return `[cfgB, cfgC, cfgA]` — the list rotated by 4 mod 3 = 1. -/
theorem c1_rotation_witness :
    (([cfgA, cfgB, cfgC] : List ApiConfigItem).length ≠ 0) ∧
    (4 + ([cfgA, cfgB, cfgC] : List ApiConfigItem).length < MAX_SAFE_INTEGER) ∧
    ((getNextConfig [] { initialState with currentIndex := 4 }
      = (none, { initialState with currentIndex := 4 })) ∧
     ((getNextConfig [cfgA, cfgB, cfgC] { initialState with currentIndex := 4 }).1
       = some (([cfgA, cfgB, cfgC] : List ApiConfigItem).getD (4 % 3) default)) ∧
     (((getNextConfig [cfgA, cfgB, cfgC] { initialState with currentIndex := 4 }).2).currentIndex
       = 4 + 1) ∧
     ((iterNextConfig [cfgA, cfgB, cfgC] 3 { initialState with currentIndex := 4 }).1
       = (([cfgA, cfgB, cfgC] : List ApiConfigItem).rotate (4 % 3)).map some) ∧
     List.Perm (([cfgA, cfgB, cfgC] : List ApiConfigItem).rotate (4 % 3))
       [cfgA, cfgB, cfgC]) :=
  ⟨by decide, by decide,
   c1_rotation [cfgA, cfgB, cfgC] { initialState with currentIndex := 4 }
     (by decide) (by decide)⟩

/-! ## C2: the failover queue -/

theorem filter_orderedInsert (pr : Int) (a : ApiConfigItem) (l : List ApiConfigItem) :
    (List.orderedInsert prioLe a l).filter (fun c => decide (prio c = pr))
      = (if prio a = pr then [a] else [])
          ++ l.filter (fun c => decide (prio c = pr)) := by
  induction l with
  | nil => by_cases h : prio a = pr <;> simp [List.orderedInsert, h]
  | cons b t ih =>
    by_cases hab : prioLe a b
    · simp only [List.orderedInsert, if_pos hab]
      by_cases ha : prio a = pr <;> simp [List.filter_cons, ha]
    · have hba : prio b < prio a := by
        have := hab
        simp only [prioLe, not_le] at this
        exact this
      simp only [List.orderedInsert, if_neg hab]
      by_cases hb : prio b = pr
      · have ha : ¬prio a = pr := by omega
        simp [List.filter_cons, hb, ih, ha]
      · simp [List.filter_cons, hb, ih]

/-- The stable insertion sort preserves, for each priority value, the
relative order of the equal-priority elements. -/
theorem filter_insertionSort (pr : Int) (l : List ApiConfigItem) :
    (List.insertionSort prioLe l).filter (fun c => decide (prio c = pr))
      = l.filter (fun c => decide (prio c = pr)) := by
  induction l with
  | nil => rfl
  | cons a t ih =>
    simp only [List.insertionSort]
    rw [filter_orderedInsert, ih, List.filter_cons]
    by_cases h : prio a = pr <;> simp [h]

theorem perm_cons_filter (cs : List ApiConfigItem) (p : ApiConfigItem)
    (hnodup : (cs.map (fun c => c.id)).Nodup) (hp : p ∈ cs) :
    List.Perm cs (p :: cs.filter (fun c => decide (c.id ≠ p.id))) := by
  induction cs with
  | nil => cases hp
  | cons a t ih =>
    rw [List.map_cons, List.nodup_cons] at hnodup
    rcases List.mem_cons.mp hp with rfl | hpt
    · have hniq : ∀ c ∈ t, c.id ≠ p.id := by
        intro c hc he
        exact hnodup.1 (he ▸ List.mem_map_of_mem _ hc)
      have hfil : t.filter (fun c => decide (c.id ≠ p.id)) = t :=
        List.filter_eq_self.mpr (fun c hc => by simpa using hniq c hc)
      rw [List.filter_cons]
      simp only [ne_eq, decide_not] at hfil ⊢
      simp [hfil]
    · have ha : a.id ≠ p.id := by
        intro he
        exact hnodup.1 (he ▸ List.mem_map_of_mem _ hpt)
      have step : List.Perm (a :: t)
          (p :: a :: t.filter (fun c => decide (c.id ≠ p.id))) :=
        ((ih hnodup.2 hpt).cons a).trans (List.Perm.swap _ _ _)
      rw [List.filter_cons]
      simpa [ha, ne_eq, decide_not] using step

/-- C2: `buildFailoverQueue` on an empty list returns the empty sequence;
on a non-empty list with pairwise-distinct ids it consumes one rotation step
and returns the rotation-picked preferred config followed by the remaining
configs sorted ascending by `priority || 0` — a permutation of the input in
which equal-priority ties keep their original relative order (for each
priority value, the filtered subsequences coincide). -/
theorem c2_failover_queue (cs : List ApiConfigItem) (s : DispatcherState)
    (hnodup : (cs.map (fun c => c.id)).Nodup) :
    ((buildFailoverQueue [] s).1 = []) ∧
    (cs ≠ [] →
      ∃ p rest,
        buildFailoverQueue cs s = (p :: rest, (getNextConfig cs s).2) ∧
        (getNextConfig cs s).1 = some p ∧
        List.Perm (p :: rest) cs ∧
        rest.Sorted prioLe ∧
        (∀ pr : Int, rest.filter (fun c => decide (prio c = pr))
          = (cs.filter (fun c => decide (c.id ≠ p.id))).filter
              (fun c => decide (prio c = pr)))) := by
  refine ⟨by simp [buildFailoverQueue], ?_⟩
  intro hne
  have hlen : cs.length ≠ 0 := fun hz => hne (List.length_eq_zero.mp hz)
  have hpos : 0 < cs.length := Nat.pos_of_ne_zero hlen
  have hmod : s.currentIndex % cs.length < cs.length := Nat.mod_lt _ hpos
  have hg : (getNextConfig cs s).1
      = some (cs.getD (s.currentIndex % cs.length) default) := by
    simp [getNextConfig, hlen]
  have hpmem : cs.getD (s.currentIndex % cs.length) default ∈ cs := by
    rw [List.getD_eq_getElem?_getD, List.getElem?_eq_getElem hmod, Option.getD_some]
    exact List.getElem_mem hmod
  have hpair : getNextConfig cs s
      = (some (cs.getD (s.currentIndex % cs.length) default), (getNextConfig cs s).2) := by
    rw [← hg]
  have hbuild : buildFailoverQueue cs s
      = (cs.getD (s.currentIndex % cs.length) default ::
          List.insertionSort prioLe
            (cs.filter (fun c =>
              decide (c.id ≠ (cs.getD (s.currentIndex % cs.length) default).id))),
         (getNextConfig cs s).2) := by
    simp only [buildFailoverQueue, if_neg hlen]
    rw [hpair]
  refine ⟨cs.getD (s.currentIndex % cs.length) default, _, hbuild, hg, ?_, ?_, ?_⟩
  · exact ((List.perm_insertionSort prioLe _).cons _).trans
      (perm_cons_filter cs _ hnodup hpmem).symm
  · exact List.sorted_insertionSort prioLe _
  · intro pr
    exact filter_insertionSort pr _

/-- Witness for C2: from cursor 1 over `[cfgA, cfgB, cfgC]` (distinct ids,
priorities 5, 1 and missing), the queue is `cfgB` first, then `cfgC` (default
priority 0) before `cfgA` (priority 5). -/
theorem c2_failover_queue_witness :
    ((([cfgA, cfgB, cfgC] : List ApiConfigItem).map (fun c => c.id)).Nodup) ∧
    (([cfgA, cfgB, cfgC] : List ApiConfigItem) ≠ []) ∧
    (∃ p rest,
      buildFailoverQueue [cfgA, cfgB, cfgC] { initialState with currentIndex := 1 }
        = (p :: rest,
           (getNextConfig [cfgA, cfgB, cfgC] { initialState with currentIndex := 1 }).2) ∧
      (getNextConfig [cfgA, cfgB, cfgC] { initialState with currentIndex := 1 }).1
        = some p ∧
      List.Perm (p :: rest) [cfgA, cfgB, cfgC] ∧
      rest.Sorted prioLe ∧
      (∀ pr : Int, rest.filter (fun c => decide (prio c = pr))
        = (([cfgA, cfgB, cfgC] : List ApiConfigItem).filter
            (fun c => decide (c.id ≠ p.id))).filter
              (fun c => decide (prio c = pr)))) :=
  ⟨by decide, by decide,
   (c2_failover_queue [cfgA, cfgB, cfgC] { initialState with currentIndex := 1 }
      (by decide)).2 (by decide)⟩

/-! ## C4: getNextAvailableApiKey -/

theorem find?_range_some : ∀ (n : Nat) (p : Nat → Bool) (i : Nat),
    (List.range n).find? p = some i →
      i < n ∧ p i = true ∧ ∀ j < i, p j = false := by
  intro n
  induction n with
  | zero => intro p i h; simp [List.range_zero] at h
  | succ m ih =>
    intro p i h
    rw [List.range_succ_eq_map] at h
    by_cases h0 : p 0
    · rw [List.find?_cons_of_pos _ h0] at h
      obtain rfl : (0 : Nat) = i := Option.some_inj.mp h
      exact ⟨Nat.succ_pos m, h0, fun j hj => absurd hj (Nat.not_lt_zero j)⟩
    · rw [List.find?_cons_of_neg _ h0, List.find?_map] at h
      obtain ⟨i', hi', rfl⟩ := Option.map_eq_some'.mp h
      obtain ⟨hlt, hp, hprev⟩ := ih (p ∘ Nat.succ) i' hi'
      refine ⟨Nat.succ_lt_succ hlt, hp, ?_⟩
      intro j hj
      cases j with
      | zero => simpa using h0
      | succ j' => exact hprev j' (Nat.lt_of_succ_lt_succ hj)

theorem find?_range_none {p : Nat → Bool} {n : Nat}
    (h : (List.range n).find? p = none) : ∀ j < n, p j = false := by
  intro j hj
  have := List.find?_eq_none.mp h j (List.mem_range.mpr hj)
  simpa using this

theorem find?_range_eq_of_first {p : Nat → Bool} {n i : Nat} (hin : i < n)
    (hpi : p i = true) (hprev : ∀ j < i, p j = false) :
    (List.range n).find? p = some i := by
  cases hf : (List.range n).find? p with
  | none =>
    have := find?_range_none hf i hin
    rw [this] at hpi
    exact absurd hpi (by simp)
  | some i' =>
    obtain ⟨_, hpi', hprev'⟩ := find?_range_some _ _ _ hf
    have hii : i' = i := by
      rcases Nat.lt_trichotomy i' i with h | h | h
      · rw [hprev i' h] at hpi'
        exact absurd hpi' (by simp)
      · exact h
      · rw [hprev' i h] at hpi
        exact absurd hpi (by simp)
    rw [hii]

theorem keyScanCore_spec (configId : String) (keys : List String) (now : Nat)
    (kss : List (String × KeyStatus)) (status : RuntimeStatus) (s : DispatcherState) :
    (∀ k, (keyScanCore configId keys now kss status s).1 = some k →
      ∃ i, i < keys.length ∧
        k = keys.getD ((status.keyRotationIndex.getD 0 + i) % keys.length) "" ∧
        keyAvailable kss k now = true ∧
        (∀ j < i, keyAvailable kss
          (keys.getD ((status.keyRotationIndex.getD 0 + j) % keys.length) "") now = false) ∧
        readKeyRotationIndex (keyScanCore configId keys now kss status s).2 configId
          = (((status.keyRotationIndex.getD 0 + i) % keys.length) + 1) % keys.length) ∧
    (∀ i, i < keys.length →
      keyAvailable kss (keys.getD ((status.keyRotationIndex.getD 0 + i) % keys.length) "")
        now = true →
      (∀ j < i, keyAvailable kss
        (keys.getD ((status.keyRotationIndex.getD 0 + j) % keys.length) "") now = false) →
      (keyScanCore configId keys now kss status s).1
          = some (keys.getD ((status.keyRotationIndex.getD 0 + i) % keys.length) "") ∧
        readKeyRotationIndex (keyScanCore configId keys now kss status s).2 configId
          = (((status.keyRotationIndex.getD 0 + i) % keys.length) + 1) % keys.length) ∧
    ((∀ j < keys.length, keyAvailable kss
        (keys.getD ((status.keyRotationIndex.getD 0 + j) % keys.length) "") now = false) →
      keyScanCore configId keys now kss status s = (none, s)) := by
  cases hf : (List.range keys.length).find?
      (fun i => keyAvailable kss
        (keys.getD ((status.keyRotationIndex.getD 0 + i) % keys.length) "") now) with
  | none =>
    have heq : keyScanCore configId keys now kss status s = (none, s) := by
      simp only [keyScanCore]
      rw [hf]
    rw [heq]
    refine ⟨?_, ?_, ?_⟩
    · intro k hk
      simp at hk
    · intro i hin hpi hprev
      have hf2 := find?_range_eq_of_first hin hpi hprev
      rw [hf] at hf2
      exact absurd hf2 (by simp)
    · intro _
      rfl
  | some i =>
    obtain ⟨hilt, hpi, hprev⟩ := find?_range_some _ _ _ hf
    have heq1 : (keyScanCore configId keys now kss status s).1
        = some (keys.getD ((status.keyRotationIndex.getD 0 + i) % keys.length) "") := by
      simp only [keyScanCore]
      rw [hf]
    have hidx : readKeyRotationIndex (keyScanCore configId keys now kss status s).2 configId
        = (((status.keyRotationIndex.getD 0 + i) % keys.length) + 1) % keys.length := by
      simp only [keyScanCore]
      rw [hf]
      simp [readKeyRotationIndex, getk_setk_self]
    refine ⟨?_, ?_, ?_⟩
    · intro k hk
      rw [heq1] at hk
      obtain rfl : keys.getD ((status.keyRotationIndex.getD 0 + i) % keys.length) "" = k :=
        Option.some_inj.mp hk
      exact ⟨i, hilt, rfl, hpi, hprev, hidx⟩
    · intro i2 hin2 hpi2 hprev2
      have hf2 := find?_range_eq_of_first hin2 hpi2 hprev2
      rw [hf] at hf2
      obtain rfl : i = i2 := Option.some_inj.mp hf2
      exact ⟨heq1, hidx⟩
    · intro hall
      have := hall i hilt
      rw [this] at hpi
      exact absurd hpi (by simp)

/-- C4: `getNextAvailableApiKey` returns absent when the parsed key list is
empty; returns the single key directly (state untouched) when there is
exactly one; and with two or more keys scans at most `keys.length` positions
in rotation order from the stored rotation index and returns the first key
whose key-health entry is absent or not on cooldown: whenever position `i`
is the first available one in scan order, that key is returned and the
stored index advances to one past the found position modulo the length (and
conversely any returned key is the first available position), while if every
scanned position is on cooldown the result is absent and the stored rotation
index is left unchanged. -/
theorem c4_next_available_key (configId apiKeyRaw : String) (now : Nat)
    (s : DispatcherState) :
    (parseApiKeys apiKeyRaw = [] →
      getNextAvailableApiKey configId apiKeyRaw now s = (none, s)) ∧
    (∀ k, parseApiKeys apiKeyRaw = [k] →
      getNextAvailableApiKey configId apiKeyRaw now s = (some k, s)) ∧
    (2 ≤ (parseApiKeys apiKeyRaw).length →
      (∀ k, (getNextAvailableApiKey configId apiKeyRaw now s).1 = some k →
        ∃ i, i < (parseApiKeys apiKeyRaw).length ∧
          k = (parseApiKeys apiKeyRaw).getD
                ((readKeyRotationIndex s configId + i) % (parseApiKeys apiKeyRaw).length) "" ∧
          keyAvailable (readKeyStatuses s configId) k now = true ∧
          (∀ j < i, keyAvailable (readKeyStatuses s configId)
            ((parseApiKeys apiKeyRaw).getD
              ((readKeyRotationIndex s configId + j) % (parseApiKeys apiKeyRaw).length) "")
            now = false) ∧
          readKeyRotationIndex (getNextAvailableApiKey configId apiKeyRaw now s).2 configId
            = (((readKeyRotationIndex s configId + i) % (parseApiKeys apiKeyRaw).length) + 1)
                % (parseApiKeys apiKeyRaw).length) ∧
      (∀ i, i < (parseApiKeys apiKeyRaw).length →
        keyAvailable (readKeyStatuses s configId)
          ((parseApiKeys apiKeyRaw).getD
            ((readKeyRotationIndex s configId + i) % (parseApiKeys apiKeyRaw).length) "")
          now = true →
        (∀ j < i, keyAvailable (readKeyStatuses s configId)
          ((parseApiKeys apiKeyRaw).getD
            ((readKeyRotationIndex s configId + j) % (parseApiKeys apiKeyRaw).length) "")
          now = false) →
        (getNextAvailableApiKey configId apiKeyRaw now s).1
            = some ((parseApiKeys apiKeyRaw).getD
                ((readKeyRotationIndex s configId + i) % (parseApiKeys apiKeyRaw).length) "") ∧
          readKeyRotationIndex (getNextAvailableApiKey configId apiKeyRaw now s).2 configId
            = (((readKeyRotationIndex s configId + i) % (parseApiKeys apiKeyRaw).length) + 1)
                % (parseApiKeys apiKeyRaw).length) ∧
      ((∀ j < (parseApiKeys apiKeyRaw).length,
          keyAvailable (readKeyStatuses s configId)
            ((parseApiKeys apiKeyRaw).getD
              ((readKeyRotationIndex s configId + j) % (parseApiKeys apiKeyRaw).length) "")
            now = false) →
        (getNextAvailableApiKey configId apiKeyRaw now s).1 = none ∧
        readKeyRotationIndex (getNextAvailableApiKey configId apiKeyRaw now s).2 configId
          = readKeyRotationIndex s configId)) := by
  refine ⟨?_, ?_, ?_⟩
  · intro h
    simp [getNextAvailableApiKey, h]
  · intro k hk
    simp [getNextAvailableApiKey, hk]
  · intro h2
    have hlen0 : ¬(parseApiKeys apiKeyRaw).length = 0 := by omega
    have hlen1 : ¬(parseApiKeys apiKeyRaw).length = 1 := by omega
    cases hks : ((getk configId s.runtimeStatusCache).getD defaultRuntimeStatus).keyStatuses with
    | some m =>
      have heq : getNextAvailableApiKey configId apiKeyRaw now s
          = keyScanCore configId (parseApiKeys apiKeyRaw) now m
              ((getk configId s.runtimeStatusCache).getD defaultRuntimeStatus) s := by
        simp only [getNextAvailableApiKey]
        rw [if_neg hlen0, if_neg hlen1, hks]
      have hreadm : readKeyStatuses s configId = m := by
        simp [readKeyStatuses, hks]
      obtain ⟨hsome, hfirst, hnone⟩ := keyScanCore_spec configId (parseApiKeys apiKeyRaw) now m
        ((getk configId s.runtimeStatusCache).getD defaultRuntimeStatus) s
      rw [heq, hreadm]
      refine ⟨hsome, hfirst, ?_⟩
      intro hall
      rw [hnone hall]
      exact ⟨rfl, rfl⟩
    | none =>
      have heq : getNextAvailableApiKey configId apiKeyRaw now s
          = keyScanCore configId (parseApiKeys apiKeyRaw) now []
              { (getk configId s.runtimeStatusCache).getD defaultRuntimeStatus with
                keyStatuses := some [] }
              { s with runtimeStatusCache :=
                  (setk configId
                    { (getk configId s.runtimeStatusCache).getD defaultRuntimeStatus with
                      keyStatuses := some [] }
                    s.runtimeStatusCache) } := by
        simp only [getNextAvailableApiKey]
        rw [if_neg hlen0, if_neg hlen1, hks]
      have hreadm : readKeyStatuses s configId = [] := by
        simp [readKeyStatuses, hks]
      obtain ⟨hsome, hfirst, hnone⟩ := keyScanCore_spec configId (parseApiKeys apiKeyRaw) now []
        { (getk configId s.runtimeStatusCache).getD defaultRuntimeStatus with
          keyStatuses := some [] }
        { s with runtimeStatusCache :=
            (setk configId
              { (getk configId s.runtimeStatusCache).getD defaultRuntimeStatus with
                keyStatuses := some [] }
              s.runtimeStatusCache) }
      rw [heq, hreadm]
      refine ⟨hsome, hfirst, ?_⟩
      intro hall
      rw [hnone hall]
      refine ⟨rfl, ?_⟩
      simp [readKeyRotationIndex, getk_setk_self]

/-- Witness for C4 at the spec's scenario: keys `k1,k2,k3` with `k2` cooling
down until 100, queried at time 50 from stored index 0 — position 0 (`k1`)
is available, so the scan must and does return it, advancing the stored
index; conversely the returned key is certified to be the first available
position. -/
theorem c4_next_available_key_witness :
    (2 ≤ (parseApiKeys ("k1,k2,k3")).length) ∧
    (0 < (parseApiKeys ("k1,k2,k3")).length) ∧
    (keyAvailable (readKeyStatuses sampleKeyState "e")
      ((parseApiKeys ("k1,k2,k3")).getD
        ((readKeyRotationIndex sampleKeyState "e" + 0)
          % (parseApiKeys ("k1,k2,k3")).length) "") 50 = true) ∧
    ((getNextAvailableApiKey "e" ("k1,k2,k3") 50 sampleKeyState).1
        = some ((parseApiKeys ("k1,k2,k3")).getD
            ((readKeyRotationIndex sampleKeyState "e" + 0)
              % (parseApiKeys ("k1,k2,k3")).length) "") ∧
      readKeyRotationIndex (getNextAvailableApiKey "e" ("k1,k2,k3") 50 sampleKeyState).2 "e"
        = (((readKeyRotationIndex sampleKeyState "e" + 0)
            % (parseApiKeys ("k1,k2,k3")).length) + 1)
            % (parseApiKeys ("k1,k2,k3")).length) ∧
    (∃ i, i < (parseApiKeys ("k1,k2,k3")).length ∧
      "k1" = (parseApiKeys ("k1,k2,k3")).getD
            ((readKeyRotationIndex sampleKeyState "e" + i)
              % (parseApiKeys ("k1,k2,k3")).length) "" ∧
      keyAvailable (readKeyStatuses sampleKeyState "e") "k1" 50 = true ∧
      (∀ j < i, keyAvailable (readKeyStatuses sampleKeyState "e")
        ((parseApiKeys ("k1,k2,k3")).getD
          ((readKeyRotationIndex sampleKeyState "e" + j)
            % (parseApiKeys ("k1,k2,k3")).length) "") 50 = false) ∧
      readKeyRotationIndex (getNextAvailableApiKey "e" ("k1,k2,k3") 50 sampleKeyState).2 "e"
        = (((readKeyRotationIndex sampleKeyState "e" + i)
            % (parseApiKeys ("k1,k2,k3")).length) + 1)
            % (parseApiKeys ("k1,k2,k3")).length) :=
  ⟨by decide, by decide, by decide,
   ((c4_next_available_key "e" ("k1,k2,k3") 50 sampleKeyState).2.2 (by decide)).2.1
     0 (by decide) (by decide) (fun j hj => absurd hj (Nat.not_lt_zero j)),
   ((c4_next_available_key "e" ("k1,k2,k3") 50 sampleKeyState).2.2 (by decide)).1
     "k1" (by decide)⟩

/-! ## C6: the TTL cache covers the enabled filter, never the cooldown filter -/

/-- The three paths of `filterCooldownConfigs` are equivalent to the uniform
cooldown filter. -/
theorem filterCooldownConfigs_eq_filter (configs : List ApiConfigItem) (now : Nat)
    (s : DispatcherState) :
    filterCooldownConfigs configs now s
      = configs.filter (fun c => endpointAvailable s c.id now) := by
  by_cases h1 : s.runtimeStatusCache = []
  · have hall : ∀ c ∈ configs, endpointAvailable s c.id now := by
      intro c _
      simp [endpointAvailable, h1, getk]
    simp only [filterCooldownConfigs, if_pos h1]
    exact (List.filter_eq_self.mpr (fun a ha => by simpa using hall a ha)).symm
  · by_cases h2 : configs.length = 1
    · obtain ⟨c, rfl⟩ := List.length_eq_one.mp h2
      simp only [filterCooldownConfigs, if_neg h1, List.length_singleton, if_pos rfl]
      by_cases hav : endpointAvailable s c.id now
      · simp [List.filter_cons, hav]
      · simp [List.filter_cons, hav]
    · simp [filterCooldownConfigs, h1, h2]

/-- Under coherence of the (possibly pre-existing) cache entry for the query
key, `getEnabledConfigs` always returns the cooldown filter of the
enabled-and-provider-filtered base, leaves the runtime health map untouched,
keeps the base unchanged, and restores coherence for the query key. -/
theorem getEnabledConfigs_spec (settings : List ApiConfigItem) (q : Option String)
    (now : Nat) (s : DispatcherState)
    (hcoh : ∀ v, getk (cacheKeyOf q) s.enabledConfigsCache = some v →
      v = enabledBase settings q s) :
    (getEnabledConfigs settings q now s).1
      = (enabledBase settings q s).filter (fun c => endpointAvailable s c.id now) ∧
    ((getEnabledConfigs settings q now s).2).runtimeStatusCache = s.runtimeStatusCache ∧
    enabledBase settings q ((getEnabledConfigs settings q now s).2)
      = enabledBase settings q s ∧
    (∀ v, getk (cacheKeyOf q) ((getEnabledConfigs settings q now s).2).enabledConfigsCache
        = some v → v = enabledBase settings q s) := by
  by_cases hhit : 0 < s.cacheTimestamp ∧ now - s.cacheTimestamp < CACHE_TTL_MS ∧
      (getk (cacheKeyOf q) s.enabledConfigsCache).isSome
  · have heq : getEnabledConfigs settings q now s
        = (filterCooldownConfigs
            ((getk (cacheKeyOf q) s.enabledConfigsCache).getD []) now s, s) := by
      simp only [getEnabledConfigs]
      rw [if_pos hhit]
    obtain ⟨v, hv⟩ := Option.isSome_iff_exists.mp hhit.2.2
    rw [heq]
    refine ⟨?_, rfl, rfl, hcoh⟩
    rw [hv]
    simp only [Option.getD_some]
    rw [hcoh v hv]
    exact filterCooldownConfigs_eq_filter _ _ _
  · have heq : getEnabledConfigs settings q now s
        = (filterCooldownConfigs (enabledBase settings q s) now
            { s with
              configCache := some (match s.configCache with
                | some a => a
                | none => settings),
              enabledConfigsCache :=
                (setk (cacheKeyOf q) (enabledBase settings q s) s.enabledConfigsCache),
              cacheTimestamp := now },
           { s with
             configCache := some (match s.configCache with
               | some a => a
               | none => settings),
             enabledConfigsCache :=
               (setk (cacheKeyOf q) (enabledBase settings q s) s.enabledConfigsCache),
             cacheTimestamp := now }) := by
      simp only [getEnabledConfigs]
      rw [if_neg hhit]
    rw [heq]
    refine ⟨?_, rfl, ?_, ?_⟩
    · exact filterCooldownConfigs_eq_filter _ _ _
    · cases hcc : s.configCache <;> simp [enabledBase, hcc]
    · intro v hv
      rw [getk_setk_self] at hv
      exact (Option.some_inj.mp hv).symm

/-- C6: two `getEnabledConfigs` calls with the same provider filter inside
one TTL window, with no intervening invalidation or configuration change
(only the runtime health map may change between the calls, to an arbitrary
`rt2`), return cooldown-filters of the same enabled-and-provider-filtered
base; in particular an endpoint whose cooldown began between the calls is
excluded from the second result even when the cached entry is served.  The
coherence hypothesis states that any pre-existing cache entry for the query
key was computed from the current configuration. -/
theorem c6_cache_ttl (settings : List ApiConfigItem) (q : Option String)
    (t1 t2 : Nat) (s0 : DispatcherState) (rt2 : List (String × RuntimeStatus))
    (hcoh : ∀ v, getk (cacheKeyOf q) s0.enabledConfigsCache = some v →
      v = enabledBase settings q s0)
    (h12 : t1 ≤ t2) (httl : t2 - t1 < CACHE_TTL_MS) :
    ((getEnabledConfigs settings q t1 s0).1
      = (enabledBase settings q s0).filter (fun c => endpointAvailable s0 c.id t1)) ∧
    ((getEnabledConfigs settings q t2
        { (getEnabledConfigs settings q t1 s0).2 with runtimeStatusCache := rt2 }).1
      = (enabledBase settings q s0).filter
          (fun c => endpointAvailable
            { (getEnabledConfigs settings q t1 s0).2 with
              runtimeStatusCache := rt2 } c.id t2)) ∧
    (∀ c, endpointAvailable
        { (getEnabledConfigs settings q t1 s0).2 with
          runtimeStatusCache := rt2 } c.id t2 = false →
      c ∉ (getEnabledConfigs settings q t2
        { (getEnabledConfigs settings q t1 s0).2 with
          runtimeStatusCache := rt2 }).1) := by
  obtain ⟨hr1, hrt1, hbase1, hcoh1⟩ := getEnabledConfigs_spec settings q t1 s0 hcoh
  have hbase2 : enabledBase settings q
      { (getEnabledConfigs settings q t1 s0).2 with runtimeStatusCache := rt2 }
      = enabledBase settings q s0 := by
    rw [show enabledBase settings q
        { (getEnabledConfigs settings q t1 s0).2 with runtimeStatusCache := rt2 }
        = enabledBase settings q (getEnabledConfigs settings q t1 s0).2 from rfl]
    exact hbase1
  have hcoh2 : ∀ v, getk (cacheKeyOf q)
      ({ (getEnabledConfigs settings q t1 s0).2 with
        runtimeStatusCache := rt2 }).enabledConfigsCache = some v →
      v = enabledBase settings q
        { (getEnabledConfigs settings q t1 s0).2 with runtimeStatusCache := rt2 } := by
    intro v hv
    rw [hbase2]
    exact hcoh1 v hv
  obtain ⟨hr2, _, _, _⟩ := getEnabledConfigs_spec settings q t2
    { (getEnabledConfigs settings q t1 s0).2 with runtimeStatusCache := rt2 } hcoh2
  refine ⟨hr1, ?_, ?_⟩
  · rw [hr2, hbase2]
  · intro c hcbad hcmem
    rw [hr2] at hcmem
    have := (List.mem_filter.mp hcmem).2
    rw [hcbad] at this
    exact Bool.noConfusion this

/-- Witness for C6: settings with one enabled and one disabled endpoint,
fresh state (empty cache, vacuous coherence), and a health change that puts
endpoint `a` on cooldown between the calls. -/
theorem c6_cache_ttl_witness :
    (∀ v, getk (cacheKeyOf none) initialState.enabledConfigsCache = some v →
      v = enabledBase [cfgA, cfgD] none initialState) ∧
    ((5 : Nat) ≤ 6) ∧ ((6 : Nat) - 5 < CACHE_TTL_MS) ∧
    (((getEnabledConfigs [cfgA, cfgD] none 5 initialState).1
      = (enabledBase [cfgA, cfgD] none initialState).filter
          (fun c => endpointAvailable initialState c.id 5)) ∧
    ((getEnabledConfigs [cfgA, cfgD] none 6
        { (getEnabledConfigs [cfgA, cfgD] none 5 initialState).2 with
          runtimeStatusCache :=
            [("a", { defaultRuntimeStatus with cooldownUntil := some 100 })] }).1
      = (enabledBase [cfgA, cfgD] none initialState).filter
          (fun c => endpointAvailable
            { (getEnabledConfigs [cfgA, cfgD] none 5 initialState).2 with
              runtimeStatusCache :=
                [("a", { defaultRuntimeStatus with cooldownUntil := some 100 })] } c.id 6)) ∧
    (∀ c, endpointAvailable
        { (getEnabledConfigs [cfgA, cfgD] none 5 initialState).2 with
          runtimeStatusCache :=
            [("a", { defaultRuntimeStatus with cooldownUntil := some 100 })] } c.id 6 = false →
      c ∉ (getEnabledConfigs [cfgA, cfgD] none 6
        { (getEnabledConfigs [cfgA, cfgD] none 5 initialState).2 with
          runtimeStatusCache :=
            [("a", { defaultRuntimeStatus with cooldownUntil := some 100 })] }).1)) :=
  ⟨fun v hv => by simp [getk, initialState] at hv, by decide, by decide,
   c6_cache_ttl [cfgA, cfgD] none 5 6 initialState
     [("a", { defaultRuntimeStatus with cooldownUntil := some 100 })]
     (fun v hv => by simp [getk, initialState] at hv) (by decide) (by decide)⟩

end ServiceDispatcher
